import Mathlib

/-!
Verification of the download-coordination logic of the Phinix-Downloader GUI
(src/Gui.py).  The development shallowly embeds the parts of the program the
claims are about:

* the progress hook defined inside `DownloadThread.run` (lines 30-75), which
  normalizes raw yt-dlp progress events into progress / status / finished
  signal emissions;
* the numeric semantics that hook relies on: CPython `float(str)` parsing,
  binary64 (IEEE 754 double) arithmetic for `(downloaded / total) * 100`,
  and `int()` truncation together with the exceptions it raises;
* the worker run loop `DownloadThread.run` (delivering a resolver event
  stream to the hook, then translating a raised resolver error into an
  `error_signal`) and `DownloadThread.cancel`;
* the application-level slot operations `VideoDownloaderApp.start_download`
  (lines 551-579) and `VideoDownloaderApp.cancel_download` (lines 581-587).

Binary64 arithmetic is modelled exactly over `ℚ`: a rounding function maps a
rational to the nearest representable double value (round to nearest, ties to
even, subnormal granularity below `2 ^ (-1022)`), so `29 / 100 * 100` evaluates
to the same value CPython produces.  `log_signal` emissions are omitted from
the signal model: they carry no task state.
-/

namespace Phinix

/-! ### Python string helpers -/

/-- Python's `str.strip()` (no arguments): drop leading and trailing
whitespace.  Implemented over the character list so that it evaluates by
kernel reduction. -/
def pyStrip (s : String) : String :=
  String.mk (((s.toList.dropWhile Char.isWhitespace).reverse.dropWhile
    Char.isWhitespace).reverse)

/-- Python's `str.replace('%', '')`: for the single-character pattern this is
exactly dropping every `'%'` character. -/
def stripPercentChars (s : String) : String :=
  String.mk (s.toList.filter (fun c => c ≠ '%'))

/-! ### Binary64 (IEEE 754 double) values as exact rationals -/

/-- Truncation toward zero, as Python's `int()` applied to a finite float. -/
def pyTrunc (q : ℚ) : ℤ :=
  if 0 ≤ q then ⌊q⌋ else ⌈q⌉

/-- Round a rational to the nearest integer, ties to even (the IEEE 754
default rounding used by CPython floats). -/
def roundHalfEven (x : ℚ) : ℤ :=
  if x - ⌊x⌋ < 1/2 then ⌊x⌋
  else if 1/2 < x - ⌊x⌋ then ⌊x⌋ + 1
  else if ⌊x⌋ % 2 = 0 then ⌊x⌋ else ⌊x⌋ + 1

/-- Fuel-driven floor of `log₂ n` for `n ≥ 1` (the fuel `n` always suffices
because the argument at least halves each step). -/
def natLog2Aux : Nat → Nat → Nat
  | 0, _ => 0
  | fuel+1, n => if n < 2 then 0 else natLog2Aux fuel (n / 2) + 1

def natLog2 (n : Nat) : Nat := natLog2Aux n n

/-- Fuel-driven ceiling of `log₂ n` for `n ≥ 1`. -/
def natClog2Aux : Nat → Nat → Nat
  | 0, _ => 0
  | fuel+1, n => if n ≤ 1 then 0 else natClog2Aux fuel ((n + 1) / 2) + 1

def natClog2 (n : Nat) : Nat := natClog2Aux n n

/-- Floor of `log₂ q` for a positive rational: for `q ≥ 1` this is
`⌊log₂ ⌊q⌋⌋`, and for `q < 1` it is `-⌈log₂ ⌈q⁻¹⌉⌉`. -/
def qLog2 (q : ℚ) : ℤ :=
  if 1 ≤ q then (natLog2 ⌊q⌋.toNat : ℤ) else -(natClog2 ⌈q⁻¹⌉.toNat : ℤ)

/-- Round a nonnegative rational to the nearest binary64 value: the nearest
(ties to even) multiple of `2 ^ (e - 52)` where `e` is the binade exponent,
clamped at `-1022` for subnormals.  The exponent is unbounded above; overflow
to infinity is checked by the callers that need it. -/
def rndDoubleAbs (q : ℚ) : ℚ :=
  if q = 0 then 0
  else (roundHalfEven (q / 2 ^ (max (qLog2 q) (-1022) - 52)) : ℚ) *
    2 ^ (max (qLog2 q) (-1022) - 52)

/-- Round any rational to the nearest binary64 value. -/
def rndDouble (q : ℚ) : ℚ :=
  if q < 0 then - rndDoubleAbs (-q) else rndDoubleAbs q

/-- A CPython float value as produced by `float(str)`. -/
inductive PyFloat
  | finite (q : ℚ)
  | posInf
  | negInf
  | nan
  deriving DecidableEq

/-! ### CPython `float(str)` parsing -/

/-- Digit list to number, most significant first. -/
def digitsToNat (ds : List Char) : Nat :=
  ds.foldl (fun n c => 10 * n + (c.toNat - 48)) 0

/-- Exponent digits: nonempty, all decimal digits. -/
def parseExpDigits (cs : List Char) : Option ℤ :=
  if cs.isEmpty then none
  else if cs.all (fun c => c.isDigit) then some (digitsToNat cs : ℤ)
  else none

/-- Exponent part after `e`/`E`: optional sign then digits. -/
def parseExp (cs : List Char) : Option ℤ :=
  match cs with
  | '+' :: rest => parseExpDigits rest
  | '-' :: rest => (parseExpDigits rest).map Neg.neg
  | _ => parseExpDigits cs

/-- Unsigned CPython float literal: `digits [. digits] [(e|E) exp]` with at
least one mantissa digit, yielding its exact rational value.  PEP 515 digit
separators (underscores) are not modelled. -/
def parseUnsigned (cs : List Char) : Option ℚ :=
  let ip := cs.takeWhile (fun c => c.isDigit)
  let rest := cs.dropWhile (fun c => c.isDigit)
  match rest with
  | [] => if ip.isEmpty then none else some (digitsToNat ip : ℚ)
  | '.' :: rest2 =>
    let fp := rest2.takeWhile (fun c => c.isDigit)
    let rest3 := rest2.dropWhile (fun c => c.isDigit)
    if ip.isEmpty && fp.isEmpty then none
    else
      let mant : ℚ := (digitsToNat ip : ℚ) + (digitsToNat fp : ℚ) / 10 ^ fp.length
      match rest3 with
      | [] => some mant
      | 'e' :: rest4 => (parseExp rest4).map (fun ex => mant * 10 ^ ex)
      | 'E' :: rest4 => (parseExp rest4).map (fun ex => mant * 10 ^ ex)
      | _ => none
  | 'e' :: rest2 =>
    if ip.isEmpty then none
    else (parseExp rest2).map (fun ex => (digitsToNat ip : ℚ) * 10 ^ ex)
  | 'E' :: rest2 =>
    if ip.isEmpty then none
    else (parseExp rest2).map (fun ex => (digitsToNat ip : ℚ) * 10 ^ ex)
  | _ => none

/-- CPython `float(s)`: strip whitespace, optional sign, then either an
`inf`/`infinity`/`nan` word (case-insensitive) or a decimal literal whose
exact value is rounded to binary64, overflowing to an infinity at
`2 ^ 1024`.  `none` models `ValueError`. -/
def pyFloatOfString (s : String) : Option PyFloat :=
  let cs := (pyStrip s).toList
  let signedBody : Bool × List Char :=
    match cs with
    | '+' :: rest => (false, rest)
    | '-' :: rest => (true, rest)
    | _ => (false, cs)
  let neg := signedBody.1
  let body := signedBody.2
  let low := body.map Char.toLower
  if low = "inf".toList ∨ low = "infinity".toList then
    some (if neg then PyFloat.negInf else PyFloat.posInf)
  else if low = "nan".toList then some PyFloat.nan
  else
    match parseUnsigned body with
    | none => none
    | some q =>
      let v := rndDouble (if neg then -q else q)
      if v ≤ -(2 ^ 1024 : ℚ) then some PyFloat.negInf
      else if (2 ^ 1024 : ℚ) ≤ v then some PyFloat.posInf
      else some (PyFloat.finite v)

/-! ### The progress hook (src/Gui.py lines 30-75) -/

/-- Exceptions that surface in `DownloadThread.run`:
`OverflowError` raised by `int(float(s))` on an infinite value (only
`ValueError` is caught at lines 45-46), `yt_dlp.utils.DownloadError`, and any
other exception (both caught at lines 118-125). -/
inductive PyExc
  | overflowError
  | downloadError (msg : String)
  | unexpectedError (msg : String)
  deriving DecidableEq

/-- A raw progress event: the dict `d` yt-dlp passes to the hook.  A field
value `some none` models a key that is present with value `None`;
`none` models an absent key.  `downloaded_bytes` is read with
`d.get('downloaded_bytes', 0)`, so only presence with a numeric value is
modelled. -/
structure RawEvent where
  status : String
  total_bytes : Option (Option Nat) := none
  downloaded_bytes : Option Nat := none
  percent_str : Option String := none
  speed : Option (Option ℚ) := none
  eta : Option (Option Nat) := none
  filename : Option String := none
  deriving DecidableEq

/-- The test `'total_bytes' in d and d['total_bytes']` (line 36): the key must
be present with a truthy value, i.e. a nonzero number.  Returns the usable
total. -/
def totalUsable (e : RawEvent) : Option Nat :=
  match e.total_bytes with
  | some (some t) => if t ≠ 0 then some t else none
  | _ => none

/-- Lines 36-40: `percent = int((downloaded_bytes / total_bytes) * 100)`,
with the division and multiplication evaluated in binary64 and `int()`
truncating toward zero. -/
def bytesPercent (downloaded total : Nat) : ℤ :=
  pyTrunc (rndDouble (rndDouble ((downloaded : ℚ) / (total : ℚ)) * 100))

/-- Lines 41-46: strip the percent string, drop `'%'`, `int(float(...))`;
`except ValueError: percent = 0`.  `float()` raising `ValueError` and
`int(nan)` raising `ValueError` are both caught; `int(±inf)` raises
`OverflowError`, which the handler does not catch. -/
def percentFromStr (raw : String) : Except PyExc ℤ :=
  match pyFloatOfString (stripPercentChars (pyStrip raw)) with
  | none => .ok 0
  | some (PyFloat.finite q) => .ok (pyTrunc q)
  | some PyFloat.nan => .ok 0
  | some PyFloat.posInf => .error PyExc.overflowError
  | some PyFloat.negInf => .error PyExc.overflowError

/-- Lines 35-46: the percent computed for a `downloading` event.  When the
total is usable (truthy), it is a nonzero natural number, so the inner
`if total_bytes > 0` test at line 39 is implied and the `elif` at line 41 is
skipped; otherwise the percent-string fallback applies, and with neither
field the initial `percent = 0` stands. -/
def downloadingPercent (e : RawEvent) : Except PyExc ℤ :=
  match totalUsable e with
  | some t => .ok (bytesPercent (e.downloaded_bytes.getD 0) t)
  | none =>
    match e.percent_str with
    | some ps => percentFromStr ps
    | none => .ok 0

/-- Task phase as shown by `status_signal`: line 50 emits a downloading text,
line 72 the completed text. -/
inductive Phase
  | Downloading
  | Finished
  deriving DecidableEq

inductive SpeedUnit
  | Bps
  | KBps
  | MBps
  deriving DecidableEq

/-- Lines 52-59: display unit selection by strict thresholds.  `speed` stays
in bytes/sec unless it is strictly above `1024 * 1024` (MB/s) or strictly
above `1024` (KB/s); the displayed value is divided accordingly. -/
def speedDisplay (speed : ℚ) : ℚ × SpeedUnit :=
  if 1024 * 1024 < speed then (speed / (1024 * 1024), SpeedUnit.MBps)
  else if 1024 < speed then (speed / 1024, SpeedUnit.KBps)
  else (speed, SpeedUnit.Bps)

/-- Line 51: `if 'speed' in d and d['speed'] is not None`. -/
def dispSpeed (e : RawEvent) : Option (ℚ × SpeedUnit) :=
  match e.speed with
  | some (some s) => some (speedDisplay s)
  | _ => none

/-- Lines 62-65: `minutes, seconds = divmod(eta, 60)`. -/
def dispEta (e : RawEvent) : Option (Nat × Nat) :=
  match e.eta with
  | some (some t) => some (t / 60, t % 60)
  | _ => none

/-- A signal emission observable by the UI.  `log_signal` emissions are
omitted: they carry no task state. -/
inductive Signal
  | progressSig (percent : ℤ)
  | statusSig (phase : Phase) (speed : Option (ℚ × SpeedUnit))
      (eta : Option (Nat × Nat))
  | finishedSig (filename : String)
  | errorSig (msg : String)
  deriving DecidableEq

/-- The hook (lines 30-75).  `is_cancelled` is the flag set by
`DownloadThread.cancel`; once it is set the hook returns before emitting
anything (lines 31-32).  `fs` models `os.path.exists`.  For a `downloading`
event the hook emits the progress percent then the status (lines 48, 67); for
a `finished` event it emits progress 100, the completed status, and - only
when the reported filename exists on the filesystem - the finished signal
(lines 70-75).  An uncaught exception in the percent computation aborts the
hook. -/
def hook (is_cancelled : Bool) (fs : String → Bool) (d : RawEvent) :
    Except PyExc (List Signal) :=
  if is_cancelled then .ok []
  else if d.status = "downloading" then
    match downloadingPercent d with
    | .error ex => .error ex
    | .ok pct =>
      .ok [Signal.progressSig pct,
           Signal.statusSig Phase.Downloading (dispSpeed d) (dispEta d)]
  else if d.status = "finished" then
    match d.filename with
    | some f =>
      if fs f then
        .ok [Signal.progressSig 100, Signal.statusSig Phase.Finished none none,
             Signal.finishedSig f]
      else
        .ok [Signal.progressSig 100, Signal.statusSig Phase.Finished none none]
    | none =>
      .ok [Signal.progressSig 100, Signal.statusSig Phase.Finished none none]
  else .ok []

/-! ### The worker run (DownloadThread.run, lines 110-125) -/

/-- One resolver execution: the stream of progress events `ydl.download`
delivers to the hook, and `some exc` when the resolver call raises instead of
returning. -/
structure ResolverRun where
  events : List RawEvent
  outcome : Option PyExc

/-- Whether `is_cancelled` is already set when the `i`-th callback runs:
`cancelAt = some k` models `DownloadThread.cancel` being called between the
`k`-th and the previous callback (`some 0`: before any callback). -/
def cancelledAt (cancelAt : Option Nat) (i : Nat) : Bool :=
  match cancelAt with
  | some k => decide (k ≤ i)
  | none => false

/-- Deliver events to the hook in order.  A hook exception stops delivery;
signals emitted before it stand (Qt signals are emitted as the hook runs). -/
def processEvents (fs : String → Bool) (cancelAt : Option Nat) :
    Nat → List RawEvent → List Signal × Option PyExc
  | _, [] => ([], none)
  | i, e :: es =>
    match hook (cancelledAt cancelAt i) fs e with
    | .error ex => ([], some ex)
    | .ok sigs =>
      let rest := processEvents fs cancelAt (i+1) es
      (sigs ++ rest.1, rest.2)

/-- Error message formatting of lines 118-125: `yt_dlp.utils.DownloadError`
gets the `Download Error:` prefix, every other exception the
`Unexpected Error:` prefix. -/
def excMessage : PyExc → String
  | PyExc.overflowError =>
      "Unexpected Error: cannot convert float infinity to integer"
  | PyExc.downloadError m => "Download Error: " ++ m
  | PyExc.unexpectedError m => "Unexpected Error: " ++ m

/-- The body of `DownloadThread.run`: deliver the event stream to the hook;
if the hook
raises, or `ydl.download` itself raises after the delivered events, the
`except` branches at lines 118-125 emit exactly one `error_signal` - without
consulting `is_cancelled`. -/
def runThread (fs : String → Bool) (cancelAt : Option Nat) (r : ResolverRun) :
    List Signal :=
  let p := processEvents fs cancelAt 0 r.events
  match p.2 with
  | some ex => p.1 ++ [Signal.errorSig (excMessage ex)]
  | none =>
    match r.outcome with
    | some ex => p.1 ++ [Signal.errorSig (excMessage ex)]
    | none => p.1

/-! ### Application-level slot operations (VideoDownloaderApp) -/

/-- The fields of a `DownloadThread` object (lines 21-27), plus its
`isRunning` status. -/
structure DownloadThreadState where
  url : String
  path : String
  format_choice : String
  audio_only : Bool
  is_cancelled : Bool
  running : Bool
  deriving DecidableEq

/-- The application state `start_download` and `cancel_download` read and
write: the URL input text, the selected output directory, the stored worker
reference, and the download settings. -/
structure AppState where
  url_input : String
  selected_path : String
  download_thread : Option DownloadThreadState
  format_choice : String
  audio_only : Bool
  deriving DecidableEq

/-- Outcome of a `start_download` call: the two synchronous warning-and-return
rejections (lines 553-559), or a worker was spawned. -/
inductive StartOutcome
  | invalidUrl
  | invalidPath
  | started
  deriving DecidableEq

/-- The method `VideoDownloaderApp.start_download` (lines 551-579): strip the
URL input
and reject an empty result; reject an empty or non-existing output directory;
otherwise construct a fresh `DownloadThread` from the current settings, store
it in `self.download_thread` (replacing any previous reference), and start
it.  There is no check of the previously stored thread. -/
def start_download (fs : String → Bool) (st : AppState) :
    StartOutcome × AppState :=
  let url := pyStrip st.url_input
  if url = "" then (StartOutcome.invalidUrl, st)
  else if st.selected_path = "" ∨ fs st.selected_path = false then
    (StartOutcome.invalidPath, st)
  else
    (StartOutcome.started,
     { st with download_thread := some (
        { url := url, path := st.selected_path,
          format_choice := st.format_choice, audio_only := st.audio_only,
          is_cancelled := false, running := true }) })

/-- The method `VideoDownloaderApp.cancel_download` (lines 581-587): when a
stored thread
reports `isRunning`, call its `cancel` (set `is_cancelled`, `terminate()`) and
show the cancelled status; otherwise only reset the UI.  The returned Bool
records whether the cancelled status was shown.  `terminate()` is modelled as
stopping the thread, so a later `isRunning` check reads false. -/
def cancel_download (st : AppState) : Bool × AppState :=
  match st.download_thread with
  | some th =>
    if th.running then
      (true, { st with download_thread := some (
        { th with is_cancelled := true, running := false }) })
    else (false, st)
  | none => (false, st)

/-! ### Definitions written from the spec's words, for comparison -/

/-- Modelled from the spec: `percent = floor(downloaded / total * 100)`
computed exactly. -/
def specFloorPercent (downloaded total : Nat) : Nat :=
  (100 * downloaded) / total

/-- Modelled from the spec: the largest unit among B/s, KB/s, MB/s whose
converted value is at least 1. -/
def specLargestUnit (speed : ℚ) : SpeedUnit :=
  if 1 ≤ speed / (1024 * 1024) then SpeedUnit.MBps
  else if 1 ≤ speed / 1024 then SpeedUnit.KBps
  else SpeedUnit.Bps

/-- Bytes per second denoted by one displayed unit. -/
def unitFactor : SpeedUnit → ℚ
  | SpeedUnit.Bps => 1
  | SpeedUnit.KBps => 1024
  | SpeedUnit.MBps => 1024 * 1024

/-! ### Concrete filesystems, events and states used by witnesses and
counterexamples -/

/-- A filesystem on which every path exists. -/
def fsAll : String → Bool := fun _ => true

/-- A filesystem on which no path exists. -/
def fsNone : String → Bool := fun _ => false

/-- A running download task occupying the slot. -/
def c1Thread : DownloadThreadState :=
  { url := "https://example.com/a", path := "/tmp",
    format_choice := "Best Quality", audio_only := false,
    is_cancelled := false, running := true }

/-- Application state with valid inputs while `c1Thread` is still running. -/
def c1BusyState : AppState :=
  { url_input := "https://example.com/b", selected_path := "/tmp",
    download_thread := some c1Thread, format_choice := "720p",
    audio_only := false }

/-- A resolver run that raises a `DownloadError` while delivering no events:
the situation after a cancellation, with the blocking `ydl.download` call
failing before `terminate()` takes effect. -/
def c2Run : ResolverRun :=
  { events := [], outcome := some (PyExc.downloadError "network failure") }

/-- A state with a running thread, used to exercise `cancel_download`. -/
def c2BusyState : AppState :=
  { url_input := "https://example.com/c", selected_path := "/tmp",
    download_thread := some
      { url := "https://example.com/c", path := "/tmp",
        format_choice := "Best Quality", audio_only := false,
        is_cancelled := false, running := true },
    format_choice := "Best Quality", audio_only := false }

/-- A downloading event whose percent string parses to float infinity. -/
def c3InfEvent : RawEvent :=
  { status := "downloading", percent_str := some "inf%" }

/-- A downloading event with a malformed percent string. -/
def c3AbcEvent : RawEvent :=
  { status := "downloading", percent_str := some "abc%" }

/-- A state whose URL input strips to the empty string. -/
def c5EmptyUrlState : AppState :=
  { url_input := "   ", selected_path := "/tmp", download_thread := none,
    format_choice := "Best Quality", audio_only := false }

/-- A bare downloading event: no total, no percent string. -/
def c7DlEvent : RawEvent := { status := "downloading" }

/-- A finished marker with no filename. -/
def c7FinEvent : RawEvent := { status := "finished" }

/-- A finished event whose reported file exists. -/
def c8FinEvent : RawEvent :=
  { status := "finished", filename := some "/downloads/video.mp4" }

def c8DlEvent : RawEvent := { status := "downloading" }

/-- A resolver run delivering a finished event and then a further downloading
event, as yt-dlp does when a video download is followed by a separate audio
download within one `ydl.download` call. -/
def c8Run : ResolverRun := { events := [c8FinEvent, c8DlEvent], outcome := none }

/-- A resolver run that raises a generic exception. -/
def c8ErrRun : ResolverRun :=
  { events := [], outcome := some (PyExc.unexpectedError "boom") }

/-- A downloading event carrying no usable total and no percent string. -/
def c9Event : RawEvent := { status := "downloading" }

/-- A finished event naming a file that does not exist. -/
def c10Event : RawEvent :=
  { status := "finished", filename := some "/downloads/missing.mp4" }

/-! ### Bounds on the binary64 rounding model -/

theorem roundHalfEven_le (x : ℚ) : (roundHalfEven x : ℚ) ≤ x + 1/2 := by
  unfold roundHalfEven
  split_ifs <;> push_cast <;> linarith [Int.floor_le x]

theorem roundHalfEven_nonneg (x : ℚ) (hx : 0 ≤ x) : 0 ≤ roundHalfEven x := by
  have h0 : 0 ≤ ⌊x⌋ := Int.floor_nonneg.mpr hx
  unfold roundHalfEven
  split_ifs <;> omega

/-- Evaluation rule used on concrete inputs: when `x` lies in `[n, n + 1/2)`,
the round-to-nearest-even of `x` is `n`. -/
theorem roundHalfEven_eq_floor (x : ℚ) (n : ℤ) (h1 : (n:ℚ) ≤ x)
    (h2 : x < n + 1/2) : roundHalfEven x = n := by
  have hf : ⌊x⌋ = n := Int.floor_eq_iff.mpr ⟨h1, by linarith⟩
  unfold roundHalfEven
  rw [hf, if_pos (by push_cast; linarith)]

theorem qLog2_nonpos (q : ℚ) (h : q ≤ 1) : qLog2 q ≤ 0 := by
  unfold qLog2
  split_ifs with h1
  · have hq : q = 1 := le_antisymm h h1
    subst hq
    rw [show ⌊(1:ℚ)⌋ = 1 from Int.floor_one]
    decide
  · exact neg_nonpos.mpr (by positivity)

theorem qLog2_le_six (q : ℚ) (h : q < 128) : qLog2 q ≤ 6 := by
  unfold qLog2
  split_ifs with h1
  · have h2 : ⌊q⌋ < 128 := by
      rw [Int.floor_lt]
      exact_mod_cast h
    have h3 : ⌊q⌋.toNat < 128 := by omega
    have h4 : ∀ n, n < 128 → natLog2 n ≤ 6 := by decide
    exact_mod_cast h4 _ h3
  · have : -(natClog2 ⌈q⁻¹⌉.toNat : ℤ) ≤ 0 := neg_nonpos.mpr (by positivity)
    omega

theorem rndDoubleAbs_nonneg (q : ℚ) (hq : 0 ≤ q) : 0 ≤ rndDoubleAbs q := by
  unfold rndDoubleAbs
  split_ifs with h
  · exact le_refl 0
  · have hstep : (0:ℚ) < 2 ^ (max (qLog2 q) (-1022) - 52) := by positivity
    have hr : 0 ≤ roundHalfEven (q / 2 ^ (max (qLog2 q) (-1022) - 52)) :=
      roundHalfEven_nonneg _ (div_nonneg hq hstep.le)
    exact mul_nonneg (by exact_mod_cast hr) hstep.le

/-- The rounding error is at most half a step: rounding a nonnegative value
adds at most `2 ^ (e - 53)` where `e` is the clamped binade exponent. -/
theorem rndDoubleAbs_le (q : ℚ) (hq : 0 ≤ q) :
    rndDoubleAbs q ≤ q + 2 ^ (max (qLog2 q) (-1022) - 53) := by
  unfold rndDoubleAbs
  split_ifs with h
  · positivity
  · have hstep : (0:ℚ) < 2 ^ (max (qLog2 q) (-1022) - 52) := by positivity
    have h1 := roundHalfEven_le (q / 2 ^ (max (qLog2 q) (-1022) - 52))
    have h2 := mul_le_mul_of_nonneg_right h1 hstep.le
    have h3 : q / 2 ^ (max (qLog2 q) (-1022) - 52) *
        2 ^ (max (qLog2 q) (-1022) - 52) = q := div_mul_cancel₀ q hstep.ne.symm
    have h4 : (2:ℚ) ^ (max (qLog2 q) (-1022) - 52) =
        2 ^ (max (qLog2 q) (-1022) - 53) * 2 := by
      rw [show max (qLog2 q) (-1022) - 52 = (max (qLog2 q) (-1022) - 53) + 1 by
        ring]
      exact zpow_add_one₀ two_ne_zero _
    calc (roundHalfEven (q / 2 ^ (max (qLog2 q) (-1022) - 52)) : ℚ) *
          2 ^ (max (qLog2 q) (-1022) - 52)
        ≤ (q / 2 ^ (max (qLog2 q) (-1022) - 52) + 1/2) *
          2 ^ (max (qLog2 q) (-1022) - 52) := h2
      _ = q + 2 ^ (max (qLog2 q) (-1022) - 52) / 2 := by rw [add_mul, h3]; ring
      _ = q + 2 ^ (max (qLog2 q) (-1022) - 53) := by rw [h4]; ring

theorem rndDouble_of_nonneg (q : ℚ) (hq : 0 ≤ q) :
    rndDouble q = rndDoubleAbs q := by
  rw [rndDouble, if_neg (not_lt.mpr hq)]

/-- Rounding a value of `[0, 1]` to binary64 yields at most `1 + 2 ^ (-53)`. -/
theorem rndDouble_le_one_bound (q : ℚ) (h0 : 0 ≤ q) (h1 : q ≤ 1) :
    rndDouble q ≤ 1 + 2 ^ (-53 : ℤ) := by
  rw [rndDouble_of_nonneg q h0]
  have hb := rndDoubleAbs_le q h0
  have hm : max (qLog2 q) (-1022) - 53 ≤ -53 := by
    have := qLog2_nonpos q h1
    omega
  have := zpow_le_zpow_right₀ (one_le_two (α := ℚ)) hm
  linarith

/-- Rounding a value of `[0, 128)` to binary64 adds at most `2 ^ (-47)`. -/
theorem rndDouble_le_128_bound (q : ℚ) (h0 : 0 ≤ q) (h1 : q < 128) :
    rndDouble q ≤ q + 2 ^ (-47 : ℤ) := by
  rw [rndDouble_of_nonneg q h0]
  have hb := rndDoubleAbs_le q h0
  have hm : max (qLog2 q) (-1022) - 53 ≤ -47 := by
    have := qLog2_le_six q h1
    omega
  have := zpow_le_zpow_right₀ (one_le_two (α := ℚ)) hm
  linarith

theorem rndDouble_nonneg (q : ℚ) (hq : 0 ≤ q) : 0 ≤ rndDouble q := by
  rw [rndDouble_of_nonneg q hq]
  exact rndDoubleAbs_nonneg q hq

/-! ### Claim C4 -/

/-- C4 (amended): for every byte pair with `0 ≤ downloaded ≤ total` and
`total > 0`, the percent computed at line 40 - the truncation of the binary64
evaluation of `(downloaded / total) * 100` - lies within `[0, 100]`.  (The
exact-floor equation claimed by the spec fails: see the counterexample.) -/
theorem bytesPercent_mem_range (d t : Nat) (hd : d ≤ t) (ht : 0 < t) :
    0 ≤ bytesPercent d t ∧ bytesPercent d t ≤ 100 := by
  have htq : (0:ℚ) < t := by exact_mod_cast ht
  have hq0 : (0:ℚ) ≤ (d:ℚ) / t := by positivity
  have hq1 : (d:ℚ) / t ≤ 1 := by
    rw [div_le_one htq]
    exact_mod_cast hd
  have hr0 : 0 ≤ rndDouble ((d:ℚ) / t) := rndDouble_nonneg _ hq0
  have hr1 : rndDouble ((d:ℚ) / t) ≤ 1 + 2 ^ (-53 : ℤ) :=
    rndDouble_le_one_bound _ hq0 hq1
  have heps : (2:ℚ) ^ (-53 : ℤ) = 1/9007199254740992 := by norm_num
  have hm0 : (0:ℚ) ≤ rndDouble ((d:ℚ) / t) * 100 := by positivity
  have hm1 : rndDouble ((d:ℚ) / t) * 100 < 128 := by
    rw [heps] at hr1
    linarith
  have hfin0 : 0 ≤ rndDouble (rndDouble ((d:ℚ) / t) * 100) :=
    rndDouble_nonneg _ hm0
  have hfin1 : rndDouble (rndDouble ((d:ℚ) / t) * 100) < 101 := by
    have := rndDouble_le_128_bound _ hm0 hm1
    have heps2 : (2:ℚ) ^ (-47 : ℤ) = 1/140737488355328 := by norm_num
    rw [heps] at hr1
    rw [heps2] at this
    linarith
  unfold bytesPercent pyTrunc
  rw [if_pos hfin0]
  refine ⟨Int.floor_nonneg.mpr hfin0, ?_⟩
  have : ⌊rndDouble (rndDouble ((d:ℚ) / t) * 100)⌋ < 101 :=
    Int.floor_lt.mpr (by exact_mod_cast hfin1)
  omega

/-- Witness for `bytesPercent_mem_range` at the pair `(1, 2)`. -/
theorem bytesPercent_mem_range_witness :
    1 ≤ 2 ∧ (0 ≤ bytesPercent 1 2 ∧ bytesPercent 1 2 ≤ 100) :=
  ⟨by decide, bytesPercent_mem_range 1 2 (by decide) (by decide)⟩

/-- C4 counterexample: at `(downloaded, total) = (29, 100)` the code computes
`int((29 / 100) * 100) = 28` in binary64 (CPython evaluates
`(29 / 100) * 100` to `28.999999999999996`), while the spec's exact formula
gives `floor(29 / 100 * 100) = 29`. -/
theorem bytesPercent_29_100_ne_floor :
    bytesPercent 29 100 = 28 ∧ specFloorPercent 29 100 = 29 ∧
      bytesPercent 29 100 ≠ (specFloorPercent 29 100 : ℤ) := by
  have hlog : qLog2 ((29:ℚ)/100) = -2 := by
    unfold qLog2
    rw [if_neg (by norm_num)]
    rw [show ((29:ℚ)/100)⁻¹ = 100/29 by norm_num]
    rw [show ⌈(100/29 : ℚ)⌉ = 4 from Int.ceil_eq_iff.mpr (by norm_num)]
    decide
  have hr : rndDouble ((29:ℚ)/100) = 5224175567749775/18014398509481984 := by
    rw [rndDouble_of_nonneg _ (by norm_num)]
    unfold rndDoubleAbs
    rw [if_neg (by norm_num), hlog]
    rw [show max (-2 : ℤ) (-1022) - 52 = -54 by decide]
    rw [show ((29:ℚ)/100) / 2 ^ (-54:ℤ) = 522417556774977536/100 by norm_num]
    rw [roundHalfEven_eq_floor _ 5224175567749775 (by norm_num) (by norm_num)]
    norm_num
  have hq2 : rndDouble ((29:ℚ)/100) * 100 =
      522417556774977500/18014398509481984 := by
    rw [hr]
    norm_num
  have hlog2 : qLog2 ((522417556774977500:ℚ)/18014398509481984) = 4 := by
    unfold qLog2
    rw [if_pos (by norm_num)]
    rw [show ⌊(522417556774977500:ℚ)/18014398509481984⌋ = 28 from
      Int.floor_eq_iff.mpr (by norm_num)]
    decide
  have hm : rndDouble ((522417556774977500:ℚ)/18014398509481984) =
      8162774324609023/281474976710656 := by
    rw [rndDouble_of_nonneg _ (by norm_num)]
    unfold rndDoubleAbs
    rw [if_neg (by norm_num), hlog2]
    rw [show max (4 : ℤ) (-1022) - 52 = -48 by decide]
    rw [show ((522417556774977500:ℚ)/18014398509481984) / 2 ^ (-48:ℤ) =
      522417556774977500/64 by norm_num]
    rw [roundHalfEven_eq_floor _ 8162774324609023 (by norm_num) (by norm_num)]
    norm_num
  have h1 : bytesPercent 29 100 = 28 := by
    unfold bytesPercent
    rw [show ((29:ℕ):ℚ) / ((100:ℕ):ℚ) = (29:ℚ)/100 by norm_num]
    rw [hq2, hm]
    unfold pyTrunc
    rw [if_pos (by norm_num)]
    rw [show ⌊(8162774324609023:ℚ)/281474976710656⌋ = 28 from
      Int.floor_eq_iff.mpr (by norm_num)]
  have h2 : specFloorPercent 29 100 = 29 := by norm_num [specFloorPercent]
  refine ⟨h1, h2, ?_⟩
  rw [h1, h2]
  decide

/-! ### Claim C5 -/

/-- C5: `start_download` with an empty (post-strip) URL, or with an empty or
non-existing output directory, returns at lines 553-559 before any UI change
or thread construction: the outcome is one of the two warning rejections and
the application state - in particular the stored worker reference - is
unchanged, so no worker is spawned. -/
theorem start_download_rejects_invalid_input (fs : String → Bool)
    (st : AppState)
    (h : pyStrip st.url_input = "" ∨ st.selected_path = "" ∨
      fs st.selected_path = false) :
    (start_download fs st).2 = st ∧
      ((start_download fs st).1 = StartOutcome.invalidUrl ∨
       (start_download fs st).1 = StartOutcome.invalidPath) := by
  simp only [start_download]
  split_ifs with h1 h2
  · exact ⟨rfl, Or.inl rfl⟩
  · exact ⟨rfl, Or.inr rfl⟩
  · rcases h with h | h | h
    · exact absurd h h1
    · exact absurd (Or.inl h) h2
    · exact absurd (Or.inr h) h2

/-- Witness for `start_download_rejects_invalid_input` on a whitespace-only
URL input. -/
theorem start_download_rejects_invalid_input_witness :
    (start_download fsAll c5EmptyUrlState).2 = c5EmptyUrlState ∧
      ((start_download fsAll c5EmptyUrlState).1 = StartOutcome.invalidUrl ∨
       (start_download fsAll c5EmptyUrlState).1 = StartOutcome.invalidPath) :=
  start_download_rejects_invalid_input fsAll c5EmptyUrlState
    (Or.inl (by decide))

/-! ### Claim C1 -/

/-- C1 counterexample: with `c1Thread` still running in the slot and valid
inputs, a call to `start_download` does not fail with a busy-slot error: it
reports `started` and stores a freshly spawned worker over the old
reference.  This refutes the claim that the second call fails fast with
`SlotBusy` and spawns no worker. -/
theorem start_download_busy_slot_spawns_worker :
    c1BusyState.download_thread = some c1Thread ∧
    c1Thread.running = true ∧
    (start_download fsAll c1BusyState).1 = StartOutcome.started ∧
    (start_download fsAll c1BusyState).2.download_thread = some
      { url := "https://example.com/b", path := "/tmp",
        format_choice := "720p", audio_only := false,
        is_cancelled := false, running := true } := by
  refine ⟨rfl, rfl, ?_, ?_⟩ <;> decide

/-- C1 (amended): `start_download` performs no slot-busy check.  Called with
valid inputs while a running task occupies the slot, it reports `started` and
overwrites `self.download_thread` with a fresh running worker built from the
current settings; the previous thread object itself is not touched (the
function never reads or writes it). -/
theorem start_download_no_busy_check (fs : String → Bool) (st : AppState)
    (th : DownloadThreadState) (hth : st.download_thread = some th)
    (hrun : th.running = true) (hu : pyStrip st.url_input ≠ "")
    (hp : st.selected_path ≠ "") (hfs : fs st.selected_path = true) :
    (start_download fs st).1 = StartOutcome.started ∧
    (start_download fs st).2.download_thread = some
      { url := pyStrip st.url_input, path := st.selected_path,
        format_choice := st.format_choice, audio_only := st.audio_only,
        is_cancelled := false, running := true } := by
  have hc : ¬(st.selected_path = "" ∨ fs st.selected_path = false) := by
    rintro (h | h)
    · exact hp h
    · rw [hfs] at h
      exact Bool.noConfusion h
  simp only [start_download]
  rw [if_neg hu, if_neg hc]
  exact ⟨rfl, rfl⟩

/-- Witness for `start_download_no_busy_check` at `c1BusyState`. -/
theorem start_download_no_busy_check_witness :
    (start_download fsAll c1BusyState).1 = StartOutcome.started ∧
    (start_download fsAll c1BusyState).2.download_thread = some
      { url := pyStrip c1BusyState.url_input,
        path := c1BusyState.selected_path,
        format_choice := c1BusyState.format_choice,
        audio_only := c1BusyState.audio_only,
        is_cancelled := false, running := true } :=
  start_download_no_busy_check fsAll c1BusyState c1Thread rfl rfl
    (by decide) (by decide) rfl

/-! ### Claim C6 -/

/-- C6 counterexample: at exactly 1024 bytes/sec the code keeps the B/s unit
(the thresholds at lines 54 and 57 are strict), while the spec's rule - the
largest unit whose converted value is at least 1 - selects KB/s with the
display value 1.00. -/
theorem speedDisplay_1024_stays_bytes :
    speedDisplay 1024 = (1024, SpeedUnit.Bps) ∧
    specLargestUnit 1024 = SpeedUnit.KBps ∧
    (speedDisplay 1024).2 ≠ specLargestUnit 1024 := by
  have h1 : speedDisplay 1024 = (1024, SpeedUnit.Bps) := by
    unfold speedDisplay
    rw [if_neg (by norm_num), if_neg (by norm_num)]
  have h2 : specLargestUnit 1024 = SpeedUnit.KBps := by
    unfold specLargestUnit
    rw [if_neg (by norm_num), if_pos (by norm_num)]
  refine ⟨h1, h2, ?_⟩
  rw [h1, h2]
  decide

/-- C6 (amended): the displayed speed value times its unit factor recovers
the raw bytes/sec the event carries, and the unit is chosen by strict
thresholds: MB/s exactly when `speed > 1024²`, KB/s exactly when
`1024 < speed ≤ 1024²`, and B/s exactly when `speed ≤ 1024` - so a speed of
exactly 1024 bytes/sec is displayed in B/s, not KB/s. -/
theorem speedDisplay_strict_thresholds (s : ℚ) :
    (speedDisplay s).1 * unitFactor (speedDisplay s).2 = s ∧
    ((speedDisplay s).2 = SpeedUnit.MBps ↔ 1024 * 1024 < s) ∧
    ((speedDisplay s).2 = SpeedUnit.KBps ↔ 1024 < s ∧ s ≤ 1024 * 1024) ∧
    ((speedDisplay s).2 = SpeedUnit.Bps ↔ s ≤ 1024) := by
  unfold speedDisplay
  split_ifs with h1 h2
  · refine ⟨?_, iff_of_true rfl h1, ?_, ?_⟩
    · dsimp only [unitFactor]
      field_simp
    · exact iff_of_false (by decide) (fun hk => absurd h1 (not_lt.mpr hk.2))
    · exact iff_of_false (by decide) (fun hb => by linarith)
  · refine ⟨?_, iff_of_false (by decide) h1, ?_, ?_⟩
    · dsimp only [unitFactor]
      field_simp
    · exact iff_of_true rfl ⟨h2, not_lt.mp h1⟩
    · exact iff_of_false (by decide) (fun hb => absurd h2 (not_lt.mpr hb))
  · refine ⟨?_, iff_of_false (by decide) h1, ?_, ?_⟩
    · dsimp only [unitFactor]
      exact mul_one s
    · exact iff_of_false (by decide) (fun hk => absurd hk.1 h2)
    · exact iff_of_true rfl (not_lt.mp h2)

/-! ### Structure of the hook's emissions -/

/-- Once `is_cancelled` is set the hook returns before emitting anything
(lines 31-32). -/
theorem hook_cancelled_silent (fs : String → Bool) (e : RawEvent) :
    hook true fs e = .ok [] := rfl

/-- On a downloading event the hook reduces to the percent computation
followed by the two emissions. -/
theorem hook_downloading_reduce (fs : String → Bool) (e : RawEvent)
    (hst : e.status = "downloading") :
    hook false fs e =
      match downloadingPercent e with
      | .error ex => .error ex
      | .ok pct => .ok [Signal.progressSig pct,
          Signal.statusSig Phase.Downloading (dispSpeed e) (dispEta e)] := by
  unfold hook
  rw [if_neg Bool.false_ne_true, if_pos hst]

/-- A finished event always emits progress 100 and the Finished status first,
whatever the other fields hold. -/
theorem hook_finished_shape (fs : String → Bool) (e : RawEvent)
    (hst : e.status = "finished") :
    ∃ tail, hook false fs e = .ok (Signal.progressSig 100 ::
      Signal.statusSig Phase.Finished none none :: tail) := by
  have hnd : ¬(e.status = "downloading") := by
    rw [hst]
    decide
  unfold hook
  rw [if_neg Bool.false_ne_true, if_neg hnd, if_pos hst]
  cases hfn : e.filename with
  | none => exact ⟨[], rfl⟩
  | some f =>
    by_cases hf : fs f = true
    · exact ⟨[Signal.finishedSig f], by simp only [if_pos hf]⟩
    · exact ⟨[], by simp only [if_neg hf]⟩

/-! ### Claim C9 -/

/-- C9: a downloading event carrying neither a usable `total_bytes` nor a
percent string is not dropped: the initial `percent = 0` at line 35 stands
and the hook still emits a progress update with percent 0, followed by the
status emission. -/
theorem hook_emits_zero_progress_without_fields (fs : String → Bool)
    (e : RawEvent) (hst : e.status = "downloading")
    (htot : totalUsable e = none) (hps : e.percent_str = none) :
    hook false fs e = .ok [Signal.progressSig 0,
      Signal.statusSig Phase.Downloading (dispSpeed e) (dispEta e)] := by
  have hdp : downloadingPercent e = .ok 0 := by
    unfold downloadingPercent
    rw [htot, hps]
  rw [hook_downloading_reduce fs e hst, hdp]

/-- Witness for `hook_emits_zero_progress_without_fields` at the bare
downloading event. -/
theorem hook_emits_zero_progress_without_fields_witness :
    hook false fsAll c9Event = .ok [Signal.progressSig 0,
      Signal.statusSig Phase.Downloading none none] :=
  hook_emits_zero_progress_without_fields fsAll c9Event rfl rfl rfl

/-! ### Claim C10 -/

/-- C10: on a finished event whose filename is absent, or names a path that
does not exist, the guard at line 73 fails, so no finished (completion)
signal carrying an output path is emitted - yet progress is still set
to 100. -/
theorem finished_without_existing_file_no_completion (fs : String → Bool)
    (e : RawEvent) (hst : e.status = "finished")
    (hmiss : ∀ f, e.filename = some f → fs f = false) :
    hook false fs e = .ok [Signal.progressSig 100,
      Signal.statusSig Phase.Finished none none] := by
  have hnd : ¬(e.status = "downloading") := by
    rw [hst]
    decide
  unfold hook
  rw [if_neg Bool.false_ne_true, if_neg hnd, if_pos hst]
  cases hfn : e.filename with
  | none => rfl
  | some f =>
    have hf : ¬(fs f = true) := by
      rw [hmiss f hfn]
      decide
    simp only [if_neg hf]

/-- Witness for `finished_without_existing_file_no_completion` on a finished
event naming a missing file. -/
theorem finished_without_existing_file_no_completion_witness :
    hook false fsNone c10Event = .ok [Signal.progressSig 100,
      Signal.statusSig Phase.Finished none none] :=
  finished_without_existing_file_no_completion fsNone c10Event rfl
    (fun _ _ => rfl)

/-! ### Claim C3 -/

/-- C3 counterexample: for the percent string `"inf%"` (no usable byte
total), `float()` succeeds with infinity and `int()` then raises an
`OverflowError` that the `except ValueError` handler at line 45 does not
catch: the hook raises instead of degrading to `percent = 0`, and the
worker run turns it into a Failed error event - the task fails. -/
theorem hook_inf_percent_raises_overflow :
    hook false fsAll c3InfEvent = .error PyExc.overflowError ∧
    runThread fsAll none { events := [c3InfEvent], outcome := none } =
      [Signal.errorSig
        "Unexpected Error: cannot convert float infinity to integer"] := by
  constructor
  · rfl
  · rfl

/-- C3 (amended): with no usable byte total and a percent string present, the
string is stripped, its `'%'` characters removed, and the result parsed by
`float()` and truncated by `int()`.  A `ValueError` - an unparsable string,
or `int(nan)` - is caught and degrades to `percent = 0` without failing the
task; but a string parsing to ±infinity raises an uncaught `OverflowError`
and aborts the hook. -/
theorem hook_percent_str_branch_behavior (fs : String → Bool) (e : RawEvent)
    (ps : String) (hst : e.status = "downloading")
    (htot : totalUsable e = none) (hps : e.percent_str = some ps) :
    ((pyFloatOfString (stripPercentChars (pyStrip ps)) = none ∨
      pyFloatOfString (stripPercentChars (pyStrip ps)) = some PyFloat.nan) →
      hook false fs e = .ok [Signal.progressSig 0,
        Signal.statusSig Phase.Downloading (dispSpeed e) (dispEta e)]) ∧
    (∀ q, pyFloatOfString (stripPercentChars (pyStrip ps)) =
        some (PyFloat.finite q) →
      hook false fs e = .ok [Signal.progressSig (pyTrunc q),
        Signal.statusSig Phase.Downloading (dispSpeed e) (dispEta e)]) ∧
    ((pyFloatOfString (stripPercentChars (pyStrip ps)) = some PyFloat.posInf ∨
      pyFloatOfString (stripPercentChars (pyStrip ps)) = some PyFloat.negInf) →
      hook false fs e = .error PyExc.overflowError) := by
  have hdp : downloadingPercent e = percentFromStr ps := by
    unfold downloadingPercent
    rw [htot, hps]
  have hh := hook_downloading_reduce fs e hst
  rw [hdp] at hh
  unfold percentFromStr at hh
  refine ⟨?_, ?_, ?_⟩
  · rintro (hp | hp) <;> rw [hp] at hh <;> exact hh
  · intro q hp
    rw [hp] at hh
    exact hh
  · rintro (hp | hp) <;> rw [hp] at hh <;> exact hh

/-- Witness for `hook_percent_str_branch_behavior` at the malformed percent
string `"abc%"`: the parse fails with `ValueError` and the hook emits
percent 0. -/
theorem hook_percent_str_branch_behavior_witness :
    hook false fsAll c3AbcEvent = .ok [Signal.progressSig 0,
      Signal.statusSig Phase.Downloading none none] :=
  (hook_percent_str_branch_behavior fsAll c3AbcEvent "abc%" rfl rfl rfl).1
    (Or.inl (by decide))

/-! ### Structure of event-stream processing -/

/-- With no cancellation the callback index is irrelevant. -/
theorem processEvents_none_index (fs : String → Bool) (es : List RawEvent) :
    ∀ i j, processEvents fs none i es = processEvents fs none j es := by
  induction es with
  | nil => intro i j; rfl
  | cons a as ih =>
    intro i j
    simp only [processEvents, cancelledAt]
    simp only [ih (i+1) (j+1)]

/-- With no cancellation and no exception in the first block, delivering a
concatenated stream emits the concatenation of the emissions. -/
theorem processEvents_none_append (fs : String → Bool) (bs : List RawEvent) :
    ∀ (as : List RawEvent) (i : Nat),
      (processEvents fs none i as).2 = none →
      (processEvents fs none i (as ++ bs)).1 =
        (processEvents fs none i as).1 ++ (processEvents fs none i bs).1 := by
  intro as
  induction as with
  | nil =>
    intro i _
    simp [processEvents]
  | cons a as ih =>
    intro i h
    simp only [List.cons_append, processEvents] at h ⊢
    cases hh : hook (cancelledAt none i) fs a with
    | error ex =>
      rw [hh] at h
      exact Option.noConfusion h
    | ok sigs =>
      rw [hh] at h
      dsimp only at h ⊢
      rw [show as.append bs = as ++ bs from rfl,
        ih (i+1) h, processEvents_none_index fs bs (i+1) i,
        List.append_assoc]

/-- Once the flag is set, every remaining callback is suppressed: no signals,
no exception. -/
theorem processEvents_cancelled (fs : String → Bool) (k : Nat)
    (es : List RawEvent) : ∀ i, k ≤ i →
      processEvents fs (some k) i es = ([], none) := by
  induction es with
  | nil => intro i _; rfl
  | cons a as ih =>
    intro i hk
    have hc : cancelledAt (some k) i = true := by
      unfold cancelledAt
      exact decide_eq_true hk
    simp only [processEvents, hc, hook_cancelled_silent]
    rw [ih (i+1) (Nat.le_succ_of_le hk)]
    rfl

/-- Events delivered from the cancellation point on contribute nothing: the
run is equivalent to one that stops at the cancellation point. -/
theorem processEvents_some_take (fs : String → Bool) (k : Nat)
    (es : List RawEvent) : ∀ i,
      processEvents fs (some k) i es =
        processEvents fs (some k) i (es.take (k - i)) := by
  induction es with
  | nil => intro i; rw [List.take_nil]
  | cons a as ih =>
    intro i
    by_cases hk : k ≤ i
    · rw [processEvents_cancelled fs k (a :: as) i hk,
        show k - i = 0 by omega, List.take_zero]
      rfl
    · rw [show k - i = (k - (i+1)) + 1 by omega, List.take_succ_cons]
      simp only [processEvents]
      simp only [ih (i+1)]

/-- Every shape a hook result can take: silence, an exception, a downloading
progress pair, or a finished emission with or without the file signal. -/
theorem hook_result_cases (c : Bool) (fs : String → Bool) (e : RawEvent) :
    hook c fs e = .ok [] ∨ (∃ ex, hook c fs e = .error ex) ∨
    (∃ pct, hook c fs e = .ok [Signal.progressSig pct,
      Signal.statusSig Phase.Downloading (dispSpeed e) (dispEta e)]) ∨
    hook c fs e = .ok [Signal.progressSig 100,
      Signal.statusSig Phase.Finished none none] ∨
    (∃ f, hook c fs e = .ok [Signal.progressSig 100,
      Signal.statusSig Phase.Finished none none, Signal.finishedSig f]) := by
  unfold hook
  split_ifs with h1 h2 h3
  · exact Or.inl rfl
  · cases hdp : downloadingPercent e with
    | error ex => exact Or.inr (Or.inl ⟨ex, rfl⟩)
    | ok pct => exact Or.inr (Or.inr (Or.inl ⟨pct, rfl⟩))
  · cases hfn : e.filename with
    | none => exact Or.inr (Or.inr (Or.inr (Or.inl rfl)))
    | some f =>
      by_cases hf : fs f = true
      · exact Or.inr (Or.inr (Or.inr (Or.inr ⟨f, by simp [hf]⟩)))
      · exact Or.inr (Or.inr (Or.inr (Or.inl (by simp [hf]))))
  · exact Or.inl rfl

/-- The hook never emits an error signal: the `error_signal` emissions live
in the `except` branches of `run`, not in the hook. -/
theorem hook_ok_no_errorSig (c : Bool) (fs : String → Bool) (e : RawEvent)
    (sigs : List Signal) (h : hook c fs e = .ok sigs) (m : String) :
    Signal.errorSig m ∉ sigs := by
  rcases hook_result_cases c fs e with h0 | ⟨ex, h0⟩ | ⟨pct, h0⟩ | h0 | ⟨f, h0⟩ <;>
    rw [h0] at h
  · cases h
    simp
  · exact Except.noConfusion h
  · cases h
    simp
  · cases h
    simp
  · cases h
    simp

/-- No error signal ever appears among the hook-emitted signals of a run. -/
theorem processEvents_no_errorSig (fs : String → Bool)
    (cancelAt : Option Nat) (es : List RawEvent) : ∀ (i : Nat) (m : String),
      Signal.errorSig m ∉ (processEvents fs cancelAt i es).1 := by
  induction es with
  | nil => intro i m; simp [processEvents]
  | cons a as ih =>
    intro i m
    simp only [processEvents]
    cases hh : hook (cancelledAt cancelAt i) fs a with
    | error ex => simp
    | ok sigs =>
      dsimp only
      simp only [List.mem_append]
      rintro (h | h)
      · exact hook_ok_no_errorSig _ fs a sigs hh m h
      · exact ih (i+1) m h

/-! ### Claim C7 -/

/-- C7: for every event stream, a finished marker event appended to any
exception-free prefix yields emissions that continue the prefix's emissions
with progress 100 and the Finished status, regardless of any percent or
phase values the preceding events produced (the hook consults no history). -/
theorem finished_event_forces_100_finished (fs : String → Bool)
    (prior : List RawEvent) (e : RawEvent) (hst : e.status = "finished")
    (hok : (processEvents fs none 0 prior).2 = none) :
    ∃ tail, (processEvents fs none 0 (prior ++ [e])).1 =
      (processEvents fs none 0 prior).1 ++
        (Signal.progressSig 100 ::
          Signal.statusSig Phase.Finished none none :: tail) := by
  obtain ⟨tail, htail⟩ := hook_finished_shape fs e hst
  refine ⟨tail, ?_⟩
  rw [processEvents_none_append fs [e] prior 0 hok]
  congr 1
  simp only [processEvents, cancelledAt]
  rw [htail]
  simp

/-- Witness for `finished_event_forces_100_finished`: a plain downloading
event followed by a finished marker. -/
theorem finished_event_forces_100_finished_witness :
    ∃ tail, (processEvents fsAll none 0 ([c7DlEvent] ++ [c7FinEvent])).1 =
      (processEvents fsAll none 0 [c7DlEvent]).1 ++
        (Signal.progressSig 100 ::
          Signal.statusSig Phase.Finished none none :: tail) :=
  finished_event_forces_100_finished fsAll [c7DlEvent] c7FinEvent rfl
    (by decide)

/-! ### Claim C2 -/

/-- C2 counterexample: cancellation acknowledged before any callback - so
every hook emission is suppressed - yet the blocking resolver call then
raises, and the `except` branch at lines 118-121 runs without consulting
`is_cancelled`: a Failed error event is still delivered for the cancelled
task.  This refutes the claim that no further state-change events are ever
delivered after cancellation. -/
theorem runThread_error_delivered_after_cancel :
    runThread fsAll (some 0) c2Run =
      [Signal.errorSig "Download Error: network failure"] ∧
    Signal.errorSig "Download Error: network failure" ∈
      runThread fsAll (some 0) c2Run := by
  have h : runThread fsAll (some 0) c2Run =
      [Signal.errorSig "Download Error: network failure"] := rfl
  exact ⟨h, h ▸ List.mem_singleton_self _⟩

/-- C2 (amended): after `cancel` the flag suppresses every subsequent hook
callback, so a run cancelled at index `k` emits exactly what the stream
truncated at `k` emits (no further progress, status or finished signals are
delivered); and the user-facing Cancelled marking happens at most once - a
second `cancel_download` finds the thread no longer running and does not mark
again.  Only a resolver error raised after cancellation is still delivered,
as the counterexample shows. -/
theorem cancel_suppresses_and_marks_once (fs : String → Bool) (k : Nat)
    (r : ResolverRun) (st : AppState) :
    runThread fs (some k) r =
      runThread fs (some k) { events := r.events.take k,
                              outcome := r.outcome } ∧
    ((cancel_download st).1 = true →
      (cancel_download (cancel_download st).2).1 = false) := by
  constructor
  · unfold runThread
    dsimp only
    rw [processEvents_some_take fs k r.events 0, Nat.sub_zero]
  · intro h
    cases hdt : st.download_thread with
    | none => simp [cancel_download, hdt] at h
    | some th =>
      by_cases hr : th.running = true
      · simp [cancel_download, hdt, hr]
      · simp [cancel_download, hdt, hr] at h

/-- Witness for `cancel_suppresses_and_marks_once`: cancelling the running
task marks once; the immediate second cancel does not mark again. -/
theorem cancel_suppresses_and_marks_once_witness :
    (cancel_download (cancel_download c2BusyState).2).1 = false :=
  (cancel_suppresses_and_marks_once fsAll 0 c2Run c2BusyState).2 (by decide)

/-! ### Claim C8 -/

/-- C8 counterexample: yt-dlp may deliver a finished event and then keep
downloading (video file finished, audio file next).  The worker forwards
both: the finished (Completed) emission is followed by further progress
emissions, so a Completed event is not always the last event of the task. -/
theorem runThread_finished_not_last :
    runThread fsAll none c8Run =
      [Signal.progressSig 100, Signal.statusSig Phase.Finished none none,
       Signal.finishedSig "/downloads/video.mp4", Signal.progressSig 0,
       Signal.statusSig Phase.Downloading none none] ∧
    (runThread fsAll none c8Run).getLast? ≠
      some (Signal.finishedSig "/downloads/video.mp4") := by
  have h : runThread fsAll none c8Run =
      [Signal.progressSig 100, Signal.statusSig Phase.Finished none none,
       Signal.finishedSig "/downloads/video.mp4", Signal.progressSig 0,
       Signal.statusSig Phase.Downloading none none] := rfl
  refine ⟨h, ?_⟩
  rw [h]
  decide

/-- C8 (amended): the hook itself never emits an error signal, and a Failed
error event - produced only by the `except` branches after the resolver call
ends - is always the last emission of a worker run; Completed (finished)
emissions carry no such guarantee. -/
theorem errorSig_only_last (fs : String → Bool) (cancelAt : Option Nat)
    (r : ResolverRun) (m : String)
    (h : Signal.errorSig m ∈ runThread fs cancelAt r) :
    (runThread fs cancelAt r).getLast? = some (Signal.errorSig m) := by
  unfold runThread at h ⊢
  dsimp only at h ⊢
  cases hp : (processEvents fs cancelAt 0 r.events).2 with
  | some ex =>
    rw [hp] at h
    dsimp only at h ⊢
    rw [List.mem_append] at h
    rcases h with h | h
    · exact absurd h (processEvents_no_errorSig fs cancelAt r.events 0 m)
    · rw [List.mem_singleton] at h
      rw [h, List.getLast?_concat]
  | none =>
    rw [hp] at h
    cases ho : r.outcome with
    | some ex =>
      rw [ho] at h
      dsimp only at h ⊢
      rw [List.mem_append] at h
      rcases h with h | h
      · exact absurd h (processEvents_no_errorSig fs cancelAt r.events 0 m)
      · rw [List.mem_singleton] at h
        rw [h, List.getLast?_concat]
    | none =>
      rw [ho] at h
      dsimp only at h
      exact absurd h (processEvents_no_errorSig fs cancelAt r.events 0 m)

/-- Witness for `errorSig_only_last` on a run whose resolver raises. -/
theorem errorSig_only_last_witness :
    (runThread fsAll none c8ErrRun).getLast? =
      some (Signal.errorSig "Unexpected Error: boom") :=
  errorSig_only_last fsAll none c8ErrRun "Unexpected Error: boom" (by decide)

end Phinix
